import Mathlib

/-!
# Verification of the JobGenie job-listing acquisition and normalization pipeline

Shallow embedding of the pipeline functions of `jobSearchEnhanced` (the file
`src/unnamed/part_002`) and of the page fetcher (`src/backend/functions/src/index.ts`).
JS strings are modelled as Lean `String`/`List Char` (ASCII assumptions where the
source uses Unicode-aware primitives), `Date` values as epoch milliseconds (`Int`),
and every external collaborator (generative-text provider, `JSON.parse`, the DOM)
as an explicit argument, so each embedded function is a pure, executable Lean `def`.
-/

set_option maxHeartbeats 1000000
set_option maxRecDepth 8192
set_option linter.unusedVariables false

/-- The ten decimal digit characters, i.e. the character class `\d` of the
source's regexes. -/
def decDigits : List Char := ['0','1','2','3','4','5','6','7','8','9']

/-- `c` matches the JS regex class `\d`. -/
def isDigitC (c : Char) : Bool := decDigits.contains c

/-- Whitespace recognised by the JS regex class `\s` (ASCII portion). -/
def isWsp (c : Char) : Bool :=
  c == ' ' || c == '\t' || c == '\n' || c == '\r' || c == '\x0b' || c == '\x0c'

/-- `startsWithL s pat`: the list `s` starts with `pat`. -/
def startsWithL : List Char → List Char → Bool
  | _, [] => true
  | [], _ :: _ => false
  | c :: cs, p :: ps => c == p && startsWithL cs ps

/-- `containsL s pat`: `pat` occurs contiguously in `s`
(JS `String.prototype.includes`). -/
def containsL : List Char → List Char → Bool
  | [], pat => startsWithL [] pat
  | c :: cs, pat => startsWithL (c :: cs) pat || containsL cs pat

/-- JS `String.prototype.includes`. -/
def jsIncludes (s sub : String) : Bool := containsL s.data sub.data

/-- JS `String.prototype.toLowerCase` (ASCII). -/
def jsToLowerStr (s : String) : String := ⟨s.data.map Char.toLower⟩

/-- JS `String.prototype.trim` on a character list. -/
def jsTrimL (l : List Char) : List Char :=
  ((l.dropWhile isWsp).reverse.dropWhile isWsp).reverse

/-- JS `String.prototype.trim`. -/
def jsTrim (s : String) : String := ⟨jsTrimL s.data⟩

/-- Maximal leading run of digits together with the remainder (greedy `\d+`). -/
def takeDigits : List Char → List Char × List Char
  | [] => ([], [])
  | c :: cs =>
    if isDigitC c then
      let p := takeDigits cs
      (c :: p.1, p.2)
    else ([], c :: cs)

/-- Value of a digit-only string, as JS `parseInt` computes it on the capture
of a `(\d+)` group. -/
def digitsVal (ds : List Char) : Nat :=
  ds.foldl (fun a c => 10 * a + (c.toNat - 48)) 0

/-- Skip one-or-more whitespace characters (greedy `\s+`); `none` when the list
does not start with whitespace. -/
def skipWsp1 (l : List Char) : Option (List Char) :=
  match l with
  | [] => none
  | c :: cs => if isWsp c then some (cs.dropWhile isWsp) else none

/-- Match `word[s]?\s+ago` exactly at the head of `l`. -/
def wordAgoAt (word : List Char) (l : List Char) : Bool :=
  if startsWithL l word then
    let r3 := l.drop word.length
    let r4 := if startsWithL r3 ['s'] then r3.drop 1 else r3
    match skipWsp1 r4 with
    | none => false
    | some r5 => startsWithL r5 ['a','g','o']
  else false

/-- Match `\s+word[s]?\s+ago` exactly at the head of `rest` (the tail of the
regex `(\d+)\s+word[s]?\s+ago` after its digits). -/
def tailMatch (word : List Char) (rest : List Char) : Bool :=
  match skipWsp1 rest with
  | none => false
  | some r2 => wordAgoAt word r2

/-- Leftmost match of the regex `(\d+)\s+word[s]?\s+ago` in a string, returning
the value of the captured digit group, as JS `String.prototype.match` finds it. -/
def findNumWordAgo (word : List Char) : List Char → Option Nat
  | [] => none
  | c :: cs =>
    let p := takeDigits (c :: cs)
    if p.1.isEmpty then findNumWordAgo word cs
    else if tailMatch word p.2 then some (digitsVal p.1)
    else findNumWordAgo word cs

/-- JS `regex.test` for the pattern `word[s]?\s+ago` (used for `month[s]?\s+ago`). -/
def findWordAgo (word : List Char) : List Char → Bool
  | [] => false
  | c :: cs => wordAgoAt word (c :: cs) || findWordAgo word cs

/-- Milliseconds per hour (`setHours(getHours() - h)` modelled as a linear shift). -/
def msPerHour : Int := 3600000

/-- Milliseconds per day (`setDate(getDate() - d)` modelled as a linear shift). -/
def msPerDay : Int := 86400000

/-- `extractJobDate` from `src/unnamed/part_002`: classifies a natural-language
date phrase, returning the inferred posting instant or `null`. Dates are epoch
milliseconds with the current instant `now` passed explicitly. The `/i` flags
are modelled by lowercasing the text once (all pattern literals are lowercase).
The `patterns` array declared at the top of the source function is dead code
(never read) and is not modelled. -/
def extractJobDate (text : String) (now : Int) : Option Int :=
  if text.data.isEmpty then none
  else
    let cs := text.data.map Char.toLower
    if containsL cs "today".data then some now
    else if containsL cs "yesterday".data then some (now - msPerDay)
    else
      match findNumWordAgo "hour".data cs with
      | some h => some (now - (h : Int) * msPerHour)
      | none =>
        match findNumWordAgo "day".data cs with
        | some d => if 4 < d then none else some (now - (d : Int) * msPerDay)
        | none =>
          match findNumWordAgo "week".data cs with
          | some w =>
            if 1 ≤ w then none else some (now - ((w : Int) * 7) * msPerDay)
          | none =>
            if findWordAgo "month".data cs then none else none

/-! ## Supporting lemmas about digit strings and scanning -/

theorem toLower_of_mem_decDigits {c : Char} (h : c ∈ decDigits) :
    Char.toLower c = c := by
  simp only [decDigits, List.mem_cons, List.not_mem_nil, or_false] at h
  rcases h with rfl | rfl | rfl | rfl | rfl | rfl | rfl | rfl | rfl | rfl <;> decide

theorem isDigitC_of_mem_decDigits {c : Char} (h : c ∈ decDigits) :
    isDigitC c = true := by
  simp only [decDigits, List.mem_cons, List.not_mem_nil, or_false] at h
  rcases h with rfl | rfl | rfl | rfl | rfl | rfl | rfl | rfl | rfl | rfl <;> decide

theorem map_toLower_digits (ds : List Char) (hd : ∀ c ∈ ds, c ∈ decDigits) :
    ds.map Char.toLower = ds := by
  induction ds with
  | nil => rfl
  | cons d rest ih =>
    simp only [List.map_cons]
    rw [toLower_of_mem_decDigits (hd d (by simp)),
      ih (fun c hc => hd c (List.mem_cons_of_mem _ hc))]

theorem containsL_digits_append (ds sfx : List Char) (p0 : Char) (ps : List Char)
    (hd : ∀ c ∈ ds, c ∈ decDigits) (hp0 : p0 ∉ decDigits) :
    containsL (ds ++ sfx) (p0 :: ps) = containsL sfx (p0 :: ps) := by
  induction ds with
  | nil => rfl
  | cons d rest ih =>
    have hdp : (d == p0) = false := by
      have : d ≠ p0 := fun h => hp0 (h ▸ hd d (by simp))
      exact beq_eq_false_iff_ne.mpr this
    simp only [List.cons_append, containsL, startsWithL, hdp, Bool.false_and,
      Bool.false_or]
    exact ih (fun c hc => hd c (List.mem_cons_of_mem _ hc))

theorem takeDigits_digits_append (ds sfx : List Char)
    (hd : ∀ c ∈ ds, c ∈ decDigits)
    (hs : ∀ c ∈ sfx.take 1, isDigitC c = false) :
    takeDigits (ds ++ sfx) = (ds, sfx) := by
  induction ds with
  | nil =>
    cases sfx with
    | nil => rfl
    | cons c cs =>
      have := hs c (by simp)
      simp [takeDigits, this]
  | cons d rest ih =>
    have hdig := isDigitC_of_mem_decDigits (hd d (by simp))
    simp only [List.cons_append, takeDigits, hdig, if_true, List.append_eq]
    rw [ih (fun c hc => hd c (List.mem_cons_of_mem _ hc))]

theorem findNumWordAgo_digits_append (word ds sfx : List Char)
    (hd : ∀ c ∈ ds, c ∈ decDigits)
    (hs : ∀ c ∈ sfx.take 1, isDigitC c = false) :
    findNumWordAgo word (ds ++ sfx) =
      if ds.isEmpty || !tailMatch word sfx then findNumWordAgo word sfx
      else some (digitsVal ds) := by
  induction ds with
  | nil => simp
  | cons d rest ih =>
    have htd : takeDigits (d :: rest ++ sfx) = (d :: rest, sfx) :=
      takeDigits_digits_append (d :: rest) sfx hd hs
    simp only [List.cons_append] at htd ⊢
    rw [findNumWordAgo, htd]
    simp only [List.isEmpty_cons, Bool.false_or]
    cases htm : tailMatch word sfx with
    | true => simp [htm]
    | false =>
      simp only [htm, Bool.not_false, if_true, if_false, Bool.or_true]
      rw [ih (fun c hc => hd c (List.mem_cons_of_mem _ hc))]
      simp [htm]

/-! ## C1: day-count phrases -/

/-- C1. Freshness classification of day-count phrases: for a date text of the
form `"N days ago"` (any non-empty digit string `N`), `extractJobDate` returns
`null` exactly when `N` exceeds the hard-coded freshness window of 4 days, and
otherwise returns the accepted date `now − N` days. -/
theorem extractJobDate_daysWindow (ds : List Char) (now : Int)
    (hne : ds ≠ []) (hd : ∀ c ∈ ds, c ∈ decDigits) :
    extractJobDate ⟨ds ++ " days ago".data⟩ now =
      if 4 < digitsVal ds then none
      else some (now - (digitsVal ds : Int) * msPerDay) := by
  have hlow : (ds ++ " days ago".data).map Char.toLower = ds ++ " days ago".data := by
    rw [List.map_append, map_toLower_digits ds hd]
    rfl
  have hsfx : ∀ c ∈ (" days ago".data).take 1, isDigitC c = false := by decide
  have hempty : (ds ++ " days ago".data).isEmpty = false := by
    cases ds with
    | nil => exact absurd rfl hne
    | cons d r => rfl
  rw [extractJobDate]
  simp only [hempty, Bool.false_eq_true, if_false, hlow]
  rw [containsL_digits_append ds _ 't' _ hd (by decide)]
  rw [containsL_digits_append ds _ 'y' _ hd (by decide)]
  rw [findNumWordAgo_digits_append "hour".data ds _ hd hsfx]
  rw [findNumWordAgo_digits_append "day".data ds _ hd hsfx]
  have hdstail : tailMatch "day".data " days ago".data = true := by decide
  have hne' : ds.isEmpty = false := by
    cases ds with
    | nil => exact absurd rfl hne
    | cons d r => rfl
  have h1 : containsL " days ago".data "today".data = false := by decide
  have h2 : containsL " days ago".data "yesterday".data = false := by decide
  have h3 : tailMatch "hour".data " days ago".data = false := by decide
  have h4 : findNumWordAgo "hour".data " days ago".data = none := by decide
  simp [h1, h2, h3, h4, hne', hdstail]

/-- Witness for C1 at the spec's boundary inputs: with the window at 4 days,
`"4 days ago"` is accepted with date `now − 4` days and `"5 days ago"` is
rejected. -/
theorem extractJobDate_daysWindow_witness :
    extractJobDate ⟨'4' :: " days ago".data⟩ 0 = some (0 - (4 : Int) * msPerDay) ∧
    extractJobDate ⟨'5' :: " days ago".data⟩ 0 = none := by
  constructor
  · exact (extractJobDate_daysWindow ['4'] 0 (by decide) (by decide)).trans (by decide)
  · exact (extractJobDate_daysWindow ['5'] 0 (by decide) (by decide)).trans (by decide)

/-! ## C2: week-count phrases -/

/-- C2 (amended). Freshness classification of week-count phrases: for a date
text `"N weeks ago"` the classifier rejects exactly when `N ≥ 1`; the accept
branch of the weeks case is reachable for a digit string of value `0`, which
is accepted with inferred date `now − N·7` days (i.e. `now`). -/
theorem extractJobDate_weeksReject (ds : List Char) (now : Int)
    (hne : ds ≠ []) (hd : ∀ c ∈ ds, c ∈ decDigits) :
    extractJobDate ⟨ds ++ " weeks ago".data⟩ now =
      if 1 ≤ digitsVal ds then none
      else some (now - ((digitsVal ds : Int) * 7) * msPerDay) := by
  have hlow : (ds ++ " weeks ago".data).map Char.toLower = ds ++ " weeks ago".data := by
    rw [List.map_append, map_toLower_digits ds hd]
    rfl
  have hsfx : ∀ c ∈ (" weeks ago".data).take 1, isDigitC c = false := by decide
  have hempty : (ds ++ " weeks ago".data).isEmpty = false := by
    cases ds with
    | nil => exact absurd rfl hne
    | cons d r => rfl
  rw [extractJobDate]
  simp only [hempty, Bool.false_eq_true, if_false, hlow]
  rw [containsL_digits_append ds _ 't' _ hd (by decide)]
  rw [containsL_digits_append ds _ 'y' _ hd (by decide)]
  rw [findNumWordAgo_digits_append "hour".data ds _ hd hsfx]
  rw [findNumWordAgo_digits_append "day".data ds _ hd hsfx]
  rw [findNumWordAgo_digits_append "week".data ds _ hd hsfx]
  have hws : tailMatch "week".data " weeks ago".data = true := by decide
  have hne' : ds.isEmpty = false := by
    cases ds with
    | nil => exact absurd rfl hne
    | cons d r => rfl
  have h1 : containsL " weeks ago".data "today".data = false := by decide
  have h2 : containsL " weeks ago".data "yesterday".data = false := by decide
  have h3 : tailMatch "hour".data " weeks ago".data = false := by decide
  have h4 : findNumWordAgo "hour".data " weeks ago".data = none := by decide
  have h5 : tailMatch "day".data " weeks ago".data = false := by decide
  have h6 : findNumWordAgo "day".data " weeks ago".data = none := by decide
  simp [h1, h2, h3, h4, h5, h6, hne', hws]

/-- Counterexample for C2 as stated: the weeks accept branch is reachable —
the phrase `"0 weeks ago"` matches `(\d+)\s+week[s]?\s+ago` and receives an
inferred date (`now`), so it is not true that no "weeks ago" posting ever
receives an inferred date. -/
theorem extractJobDate_weeksAcceptZero :
    extractJobDate "0 weeks ago" 0 = some 0 := by decide

/-- Witness for C2 (amended) at a concrete input: `"3 weeks ago"` is rejected. -/
theorem extractJobDate_weeksReject_witness :
    extractJobDate ⟨'3' :: " weeks ago".data⟩ 0 = none :=
  (extractJobDate_weeksReject ['3'] 0 (by decide) (by decide)).trans (by decide)

/-! ## Data model (from `jobSearchEnhanced` and `jobService` interfaces)

Only the fields read by the embedded pipeline functions are modelled. Optional
JS fields are modelled by their falsy defaults (`""` for optional strings,
`false` for optional booleans, `0` for the optional salary minimum, `[]` for
optional arrays): in every modelled code path the source only tests these
fields for truthiness or reads them after such a test, so the collapse of
`undefined` into the falsy default is observationally faithful. `Date` values
are epoch milliseconds. -/

/-- The `location` component of `SearchRefinements`. -/
structure LocationPref where
  city : String
  remote : Bool
  deriving DecidableEq

/-- The `salary` component of `SearchRefinements`. -/
structure SalaryPref where
  min : Nat
  deriving DecidableEq

/-- `SearchRefinements` (the fields read by scoring/matching). -/
structure SearchRefinements where
  location : LocationPref
  mustHaveSkills : List String
  salary : SalaryPref
  deriving DecidableEq

/-- `JobListing` from `jobService.ts`. -/
structure JobListing where
  id : String
  title : String
  company : String
  location : String
  description : String
  salary : String
  currency : String
  employmentType : String
  workplaceType : String
  requirements : List String
  responsibilities : List String
  postedDate : Int
  sourceUrl : String
  deriving DecidableEq

/-- `EnhancedJobListing` from `jobSearchEnhanced`. -/
structure EnhancedJobListing extends JobListing where
  matchScore : Int
  matchReasons : List String
  missingSkills : List String
  deriving DecidableEq

/-- All decimal digits of a string, in order (JS `s.replace(/\D/g, '')`). -/
def stripNonDigits (s : String) : List Char := s.data.filter (fun c => isDigitC c)

/-- JS `parseInt(s.replace(/\D/g, ''))`; `none` models the `NaN` result on a
digit-free string (every comparison against `NaN` is false). -/
def parseIntDigits (s : String) : Option Nat :=
  let ds := stripNonDigits s
  if ds.isEmpty then none else some (digitsVal ds)

/-- The number of must-have skills whose lowercase form occurs in
`lowercase(job.title ++ " " ++ job.description)` — the quantity the source's
`forEach` loop adds `+2` for in `calculateMatchScore` and counts via `filter`
in `generateMatchReasons`. -/
def matchedSkillCount (job : JobListing) (r : SearchRefinements) : Nat :=
  let jobText := jsToLowerStr (job.title ++ " " ++ job.description)
  (r.mustHaveSkills.filter (fun skill => jsIncludes jobText (jsToLowerStr skill))).length

/-- `calculateMatchScore` from `src/unnamed/part_002`. -/
def calculateMatchScore (job : JobListing) (r : SearchRefinements) : Int :=
  let score0 : Int := 70
  let score1 := if r.location.city != "" && jsIncludes job.location r.location.city
    then score0 + 10 else score0
  let score2 := if r.location.remote && job.workplaceType == "Remote"
    then score1 + 10 else score1
  let score3 := if job.salary != "" && r.salary.min != 0 then
      match parseIntDigits job.salary with
      | some v => if r.salary.min ≤ v then score2 + 5 else score2
      | none => score2
    else score2
  let score4 := score3 + 2 * (matchedSkillCount job r : Int)
  min score4 95

/-- `generateMatchReasons` from `src/unnamed/part_002`. -/
def generateMatchReasons (job : JobListing) (r : SearchRefinements) : List String :=
  let l1 := if r.location.city != "" && jsIncludes job.location r.location.city
    then ["Location match"] else []
  let l2 := if r.location.remote && job.workplaceType == "Remote"
    then ["Remote opportunity"] else []
  let l3 := if job.salary != "" then ["Competitive salary"] else []
  let l4 := if 0 < matchedSkillCount job r
    then ["Matches " ++ toString (matchedSkillCount job r) ++ " key skills"] else []
  (l1 ++ l2 ++ l3 ++ l4).take 3

/-! ## Supporting lemmas for monotonicity (C6) -/

/-- Proof-side abbreviation: the sum of the location, remote and salary
bonuses of `calculateMatchScore`. -/
def locRemSalBonus (job : JobListing) (r : SearchRefinements) : Int :=
  (if r.location.city != "" && jsIncludes job.location r.location.city then 10 else 0) +
  (if r.location.remote && job.workplaceType == "Remote" then 10 else 0) +
  (if job.salary != "" && r.salary.min != 0 then
    match parseIntDigits job.salary with
    | some v => if r.salary.min ≤ v then 5 else 0
    | none => 0
   else 0)

theorem calculateMatchScore_eq (job : JobListing) (r : SearchRefinements) :
    calculateMatchScore job r =
      min (70 + locRemSalBonus job r + 2 * (matchedSkillCount job r : Int)) 95 := by
  simp only [calculateMatchScore, locRemSalBonus]
  split_ifs <;> (try split) <;> (try split_ifs) <;> (congr 1) <;> ring

theorem locRemSalBonus_nonneg (job : JobListing) (r : SearchRefinements) :
    0 ≤ locRemSalBonus job r ∧ locRemSalBonus job r ≤ 25 := by
  unfold locRemSalBonus
  split_ifs <;> (try split) <;> (try split_ifs) <;> norm_num

theorem startsWithL_append_right (s t pat : List Char)
    (h : startsWithL s pat = true) : startsWithL (s ++ t) pat = true := by
  induction pat generalizing s with
  | nil => cases s ++ t <;> rfl
  | cons p ps ih =>
    cases s with
    | nil => exact absurd h (by simp [startsWithL])
    | cons c cs =>
      simp only [startsWithL, Bool.and_eq_true] at h
      simp only [List.cons_append, startsWithL, Bool.and_eq_true]
      exact ⟨h.1, ih cs h.2⟩

theorem containsL_nil_pat (s : List Char) : containsL s [] = true := by
  cases s <;> simp [containsL, startsWithL]

theorem containsL_append_right (s t pat : List Char)
    (h : containsL s pat = true) : containsL (s ++ t) pat = true := by
  induction s with
  | nil =>
    cases pat with
    | nil => exact containsL_nil_pat t
    | cons p ps => exact absurd h (by simp [containsL, startsWithL])
  | cons c cs ih =>
    simp only [containsL, Bool.or_eq_true] at h
    simp only [List.cons_append, containsL, Bool.or_eq_true]
    rcases h with h | h
    · exact Or.inl (startsWithL_append_right _ t _ h)
    · exact Or.inr (ih h)

theorem matchedSkillCount_mono_append (job : JobListing) (r : SearchRefinements)
    (extra : String) :
    matchedSkillCount job r ≤
      matchedSkillCount { job with description := job.description ++ extra } r := by
  unfold matchedSkillCount
  simp only [← List.countP_eq_length_filter]
  apply List.countP_mono_left
  intro sk _ h
  simp only [jsIncludes, jsToLowerStr, String.data_append, List.map_append] at h ⊢
  have : job.title.data.map Char.toLower ++ " ".data.map Char.toLower ++
      (job.description.data.map Char.toLower ++ extra.data.map Char.toLower) =
      (job.title.data.map Char.toLower ++ " ".data.map Char.toLower ++
        job.description.data.map Char.toLower) ++ extra.data.map Char.toLower := by
    simp [List.append_assoc]
  rw [this]
  exact containsL_append_right _ _ _ h

/-! ## C6: match-score shape, cap, and monotonicity -/

/-- C6. `calculateMatchScore` starts from base 70, adds `+2` per matched
must-have skill on top of a bounded bonus term, is capped at 95, never exceeds
95, and extending the job's description (in particular, making one more
must-have skill appear in it, all else equal) never decreases the score. -/
theorem calculateMatchScore_shape_mono (job : JobListing) (r : SearchRefinements) :
    (∃ b : Int, 0 ≤ b ∧ b ≤ 25 ∧
      calculateMatchScore job r =
        min (70 + b + 2 * (matchedSkillCount job r : Int)) 95) ∧
    calculateMatchScore job r ≤ 95 ∧
    (∀ extra : String,
      calculateMatchScore job r ≤
        calculateMatchScore { job with description := job.description ++ extra } r) := by
  obtain ⟨hb0, hb25⟩ := locRemSalBonus_nonneg job r
  refine ⟨⟨locRemSalBonus job r, hb0, hb25, calculateMatchScore_eq job r⟩, ?_, ?_⟩
  · rw [calculateMatchScore_eq]
    exact min_le_right _ _
  · intro extra
    rw [calculateMatchScore_eq, calculateMatchScore_eq]
    have hbonus : locRemSalBonus { job with description := job.description ++ extra } r =
        locRemSalBonus job r := rfl
    rw [hbonus]
    have hcnt := matchedSkillCount_mono_append job r extra
    have : (70 : Int) + locRemSalBonus job r + 2 * (matchedSkillCount job r : Int) ≤
        70 + locRemSalBonus job r +
          2 * (matchedSkillCount { job with description := job.description ++ extra } r : Int) := by
      have : (matchedSkillCount job r : Int) ≤
          (matchedSkillCount { job with description := job.description ++ extra } r : Int) := by
        exact_mod_cast hcnt
      linarith
    exact min_le_min this (le_refl 95)

/-! ## C9: match reasons -/

theorem matchesNote_head (x : String) :
    ("Matches " ++ x ++ " key skills").data.head? = some 'M' := rfl

theorem matchesNote_ne (x t : String) (ht : t.data.head? ≠ some 'M') :
    ("Matches " ++ x ++ " key skills") ≠ t :=
  fun h => ht (h ▸ matchesNote_head x)

/-- Concrete job used to refute C9 as stated: it has a non-empty `salary`
field whose parsed value is far below the refinements' minimum. -/
def jobC9 : JobListing :=
  { id := "j1", title := "Backend Engineer", company := "Acme"
    location := "Austin"
    description := "Responsibilities include building backend services."
    salary := "$500", currency := "USD", employmentType := "Full-time"
    workplaceType := "Onsite", requirements := [], responsibilities := []
    postedDate := 0, sourceUrl := "https://example.com/j1" }

/-- Refinements used to refute C9 as stated: a salary minimum of 1000000. -/
def refsC9 : SearchRefinements :=
  { location := { city := "", remote := false }
    mustHaveSkills := []
    salary := { min := 1000000 } }

/-- Counterexample for C9 as stated: `generateMatchReasons` emits the salary
note `"Competitive salary"` although the salary bonus condition of
`calculateMatchScore` did not hold (the salary parses to 500 < 1000000 and the
score stays at the base 70, without the +5 bonus). The salary note fires on
mere non-emptiness of `job.salary`. -/
theorem generateMatchReasons_salary_cex :
    generateMatchReasons jobC9 refsC9 = ["Competitive salary"] ∧
    parseIntDigits jobC9.salary = some 500 ∧
    500 < refsC9.salary.min ∧
    calculateMatchScore jobC9 refsC9 = 70 := by decide

/-- C9 (amended). `generateMatchReasons` returns at most 3 strings, in the
fixed order location match, remote opportunity, salary note, skill-count note;
the location, remote and skill notes fire exactly under the corresponding
bonus conditions of `calculateMatchScore`, but the salary note fires whenever
`job.salary` is non-empty, regardless of the salary bonus condition (the
skill note is additionally cut by the `.slice(0, 3)` truncation when the three
earlier notes all fired). -/
theorem generateMatchReasons_spec (job : JobListing) (r : SearchRefinements) :
    (generateMatchReasons job r).length ≤ 3 ∧
    ("Location match" ∈ generateMatchReasons job r ↔
      (r.location.city != "" && jsIncludes job.location r.location.city) = true) ∧
    ("Remote opportunity" ∈ generateMatchReasons job r ↔
      (r.location.remote && job.workplaceType == "Remote") = true) ∧
    ("Competitive salary" ∈ generateMatchReasons job r ↔ (job.salary != "") = true) ∧
    (("Matches " ++ toString (matchedSkillCount job r) ++ " key skills")
        ∈ generateMatchReasons job r ↔
      (0 < matchedSkillCount job r ∧
        ¬((r.location.city != "" && jsIncludes job.location r.location.city) = true ∧
          (r.location.remote && job.workplaceType == "Remote") = true ∧
          (job.salary != "") = true))) := by
  have m1 : ∀ x : String, ("Matches " ++ x ++ " key skills") ≠ "Location match" :=
    fun x => matchesNote_ne x _ (by decide)
  have m2 : ∀ x : String, ("Matches " ++ x ++ " key skills") ≠ "Remote opportunity" :=
    fun x => matchesNote_ne x _ (by decide)
  have m3 : ∀ x : String, ("Matches " ++ x ++ " key skills") ≠ "Competitive salary" :=
    fun x => matchesNote_ne x _ (by decide)
  have m1s : ∀ x : String, "Location match" ≠ ("Matches " ++ x ++ " key skills") :=
    fun x => (m1 x).symm
  have m2s : ∀ x : String, "Remote opportunity" ≠ ("Matches " ++ x ++ " key skills") :=
    fun x => (m2 x).symm
  have m3s : ∀ x : String, "Competitive salary" ≠ ("Matches " ++ x ++ " key skills") :=
    fun x => (m3 x).symm
  cases hc1 : (r.location.city != "" && jsIncludes job.location r.location.city) <;>
    cases hc2 : (r.location.remote && job.workplaceType == "Remote") <;>
    cases hc3 : (job.salary != "") <;>
    rcases Nat.eq_zero_or_pos (matchedSkillCount job r) with h4 | h4 <;>
    simp [generateMatchReasons, hc1, hc2, hc3, h4, m1, m2, m3, m1s, m2s, m3s]

/-! ## C7: quality filter -/

/-- The quality predicate of `filterQualityJobs` (the `filter` callback in the
source). The source's `(!job.requirements || job.requirements.length === 0)`
tests collapse to a length test on the modelled (always-present) lists. -/
def qualityKeep (job : EnhancedJobListing) : Bool :=
  if job.title == "" || job.company == "" || job.description == "" then false
  else if job.title.length < 5 || job.title == "Job Opening" then false
  else if job.company == "Company" || job.company.length < 2 then false
  else if job.description.length < 100 ||
      jsIncludes job.description "Please visit the job page" then false
  else if job.requirements.length == 0 && job.responsibilities.length == 0 then false
  else true

/-- `filterQualityJobs` from `src/unnamed/part_002`. -/
def filterQualityJobs (jobs : List EnhancedJobListing) : List EnhancedJobListing :=
  jobs.filter qualityKeep

theorem qualityKeep_iff (job : EnhancedJobListing) :
    qualityKeep job = true ↔
      (job.title ≠ "" ∧ 5 ≤ job.title.length ∧ job.title ≠ "Job Opening" ∧
       job.company ≠ "" ∧ 2 ≤ job.company.length ∧ job.company ≠ "Company" ∧
       job.description ≠ "" ∧ 100 ≤ job.description.length ∧
       jsIncludes job.description "Please visit the job page" = false ∧
       (job.requirements ≠ [] ∨ job.responsibilities ≠ [])) := by
  unfold qualityKeep
  split_ifs with g1 g2 g3 g4 g5
  · refine iff_of_false (by simp) ?_
    rintro ⟨t1, -, -, c1', -, -, d1, -, -, -⟩
    simp only [Bool.or_eq_true, beq_iff_eq] at g1
    rcases g1 with (h | h) | h
    exacts [t1 h, c1' h, d1 h]
  · refine iff_of_false (by simp) ?_
    rintro ⟨-, t2, t3, -, -, -, -, -, -, -⟩
    simp only [Bool.or_eq_true, beq_iff_eq, decide_eq_true_eq] at g2
    rcases g2 with h | h
    · omega
    · exact t3 h
  · refine iff_of_false (by simp) ?_
    rintro ⟨-, -, -, -, c2', c3', -, -, -, -⟩
    simp only [Bool.or_eq_true, beq_iff_eq, decide_eq_true_eq] at g3
    rcases g3 with h | h
    · exact c3' h
    · omega
  · refine iff_of_false (by simp) ?_
    rintro ⟨-, -, -, -, -, -, -, d2, d3, -⟩
    simp only [Bool.or_eq_true, decide_eq_true_eq] at g4
    rcases g4 with h | h
    · omega
    · simp [d3] at h
  · refine iff_of_false (by simp) ?_
    rintro ⟨-, -, -, -, -, -, -, -, -, rr⟩
    simp only [Bool.and_eq_true, beq_iff_eq, List.length_eq_zero] at g5
    rcases rr with h | h
    exacts [h g5.1, h g5.2]
  · refine iff_of_true rfl ?_
    simp only [Bool.or_eq_true, beq_iff_eq, decide_eq_true_eq, not_or] at g1 g2 g3 g4
    simp only [Bool.and_eq_true, beq_iff_eq, List.length_eq_zero, not_and_or] at g5
    refine ⟨g1.1.1, by omega, g2.2, g1.1.2, by omega, g3.1, g1.2, by omega, ?_, ?_⟩
    · cases hb : jsIncludes job.description "Please visit the job page"
      · rfl
      · exact absurd hb g4.2
    · rcases g5 with h | h
      · exact Or.inl h
      · exact Or.inr h

/-- C7. `filterQualityJobs` retains a job exactly when: the title is present,
at least 5 characters and not the placeholder `"Job Opening"`; the company is
present, at least 2 characters and not the placeholder `"Company"`; the
description is present, at least 100 characters and free of the
`"Please visit the job page"` fallback marker; and at least one of
requirements/responsibilities is non-empty. -/
theorem filterQualityJobs_mem (jobs : List EnhancedJobListing)
    (job : EnhancedJobListing) :
    job ∈ filterQualityJobs jobs ↔
      job ∈ jobs ∧
      (job.title ≠ "" ∧ 5 ≤ job.title.length ∧ job.title ≠ "Job Opening" ∧
       job.company ≠ "" ∧ 2 ≤ job.company.length ∧ job.company ≠ "Company" ∧
       job.description ≠ "" ∧ 100 ≤ job.description.length ∧
       jsIncludes job.description "Please visit the job page" = false ∧
       (job.requirements ≠ [] ∨ job.responsibilities ≠ [])) := by
  rw [filterQualityJobs, List.mem_filter]
  exact and_congr_right fun _ => qualityKeep_iff job

/-! ## C5: deduplication -/

/-- JS `Set.prototype.has` on the insertion-ordered set of seen signatures. -/
def seenHas (seen : List String) (x : String) : Bool :=
  seen.any (fun s => s == x)

/-- JS `Map.prototype.set` on an insertion-ordered association list: an
existing key keeps its position and gets the new value, a new key is appended. -/
def mapSet (m : List (String × EnhancedJobListing)) (k : String)
    (v : EnhancedJobListing) : List (String × EnhancedJobListing) :=
  if m.any (fun p => p.1 == k) then
    m.map (fun p => if p.1 == k then (k, v) else p)
  else m ++ [(k, v)]

/-- The primary dedup signature
`` `${job.title.toLowerCase().trim()}_${job.company.toLowerCase().trim()}` ``. -/
def titleCompanySig (job : EnhancedJobListing) : String :=
  jsTrim (jsToLowerStr job.title) ++ "_" ++ jsTrim (jsToLowerStr job.company)

/-- The secondary dedup signature
`` `${job.title.toLowerCase().trim()}_${job.location.toLowerCase().trim()}` ``. -/
def titleLocationSig (job : EnhancedJobListing) : String :=
  jsTrim (jsToLowerStr job.title) ++ "_" ++ jsTrim (jsToLowerStr job.location)

/-- The loop of `removeDuplicateJobs`: `seen` is the `seenTitles` set and
`acc` the `uniqueJobs` map (insertion-ordered, keyed by `job.id`). -/
def removeDupGo : List EnhancedJobListing → List String →
    List (String × EnhancedJobListing) → List (String × EnhancedJobListing)
  | [], _, acc => acc
  | job :: rest, seen, acc =>
    if job.title == "" || job.company == "" || job.title == "Job Opening" then
      removeDupGo rest seen acc
    else if job.description == "" || job.description.length < 100 then
      removeDupGo rest seen acc
    else
      let tc := titleCompanySig job
      let tl := titleLocationSig job
      if seenHas seen tc || seenHas seen tl then removeDupGo rest seen acc
      else removeDupGo rest (tc :: seen) (mapSet acc job.id job)

/-- `removeDuplicateJobs` from `src/unnamed/part_002`: note that only the
primary (title, company) signature is recorded in `seenTitles`. -/
def removeDuplicateJobs (jobs : List EnhancedJobListing) : List EnhancedJobListing :=
  (removeDupGo jobs [] []).map (fun p => p.2)

/-- First job of the C5 counterexample pair: identical `(title, company)` to
`jobC5B`, different `id`/`sourceUrl`, empty description. -/
def jobC5A : EnhancedJobListing :=
  { id := "a", title := "Software Engineer", company := "Acme"
    location := "Austin", description := "", salary := "", currency := "USD"
    employmentType := "", workplaceType := "", requirements := []
    responsibilities := [], postedDate := 0, sourceUrl := "https://a.example"
    matchScore := 70, matchReasons := [], missingSkills := [] }

/-- Second job of the C5 counterexample pair. -/
def jobC5B : EnhancedJobListing :=
  { jobC5A with id := "b", sourceUrl := "https://b.example" }

/-- Counterexample for C5 as stated: two listings with identical
`(title, company)` and different `id`/`sourceUrl` need not leave exactly one
survivor — jobs that fail the function's pre-checks (here: description shorter
than 100 characters) are dropped unconditionally, so both are removed. -/
theorem removeDuplicateJobs_pair_cex :
    jobC5A.title = jobC5B.title ∧ jobC5A.company = jobC5B.company ∧
    jobC5A.id ≠ jobC5B.id ∧ jobC5A.sourceUrl ≠ jobC5B.sourceUrl ∧
    removeDuplicateJobs [jobC5A, jobC5B] = [] := by decide

/-- C5 (amended). In `removeDuplicateJobs`, jobs failing the pre-checks
(missing/placeholder title or company, missing or <100-character description)
are dropped unconditionally; among jobs passing them, a job is dropped iff its
primary `lowercase(title)_lowercase(company)` signature or its secondary
`lowercase(title)_lowercase(location)` signature was already recorded — only
primary signatures of retained jobs are recorded. In particular, given two
pre-check-passing listings with identical `(title, company)` and different
`id`/`sourceUrl`, exactly one survives: the first encountered. -/
theorem removeDuplicateJobs_pair (A B : EnhancedJobListing)
    (ht : B.title = A.title) (hc : B.company = A.company)
    (hid : A.id ≠ B.id)
    (hAt : A.title ≠ "") (hAc : A.company ≠ "") (hAo : A.title ≠ "Job Opening")
    (hAd : 100 ≤ A.description.length) (hBd : 100 ≤ B.description.length) :
    removeDuplicateJobs [A, B] = [A] := by
  have hAdne : A.description ≠ "" := by
    intro h
    rw [h] at hAd
    simp [String.length] at hAd
  have hBdne : B.description ≠ "" := by
    intro h
    rw [h] at hBd
    simp [String.length] at hBd
  have e1 : (A.title == "") = false := beq_eq_false_iff_ne.mpr hAt
  have e2 : (A.company == "") = false := beq_eq_false_iff_ne.mpr hAc
  have e3 : (A.title == "Job Opening") = false := beq_eq_false_iff_ne.mpr hAo
  have e4 : (A.description == "") = false := beq_eq_false_iff_ne.mpr hAdne
  have e5 : decide (A.description.length < 100) = false := by
    simp only [decide_eq_false_iff_not]
    omega
  have f1 : (B.title == "") = false := by rw [ht]; exact e1
  have f2 : (B.company == "") = false := by rw [hc]; exact e2
  have f3 : (B.title == "Job Opening") = false := by rw [ht]; exact e3
  have f4 : (B.description == "") = false := beq_eq_false_iff_ne.mpr hBdne
  have f5 : decide (B.description.length < 100) = false := by
    simp only [decide_eq_false_iff_not]
    omega
  have hsig : titleCompanySig B = titleCompanySig A := by
    unfold titleCompanySig
    rw [ht, hc]
  simp only [removeDuplicateJobs, removeDupGo, e1, e2, e3, e4, e5, f1, f2, f3,
    f4, f5, hsig, Bool.or_false, Bool.false_or, Bool.false_eq_true, if_false,
    seenHas, List.any_nil, List.any_cons, beq_self_eq_true, Bool.true_or,
    Bool.true_eq_false, if_true, mapSet]
  rfl

/-- Witness for C5 (amended) at concrete inputs: two quality pre-check-passing
listings with equal `(title, company)` and distinct ids collapse to the first. -/
theorem removeDuplicateJobs_pair_witness :
    removeDuplicateJobs
      [{ jobC5A with description := ⟨List.replicate 120 'x'⟩ },
       { jobC5B with description := ⟨List.replicate 130 'y'⟩ }] =
      [{ jobC5A with description := ⟨List.replicate 120 'x'⟩ }] := by
  exact removeDuplicateJobs_pair _ _ (by decide) (by decide) (by decide)
    (by decide) (by decide) (by decide) (by decide) (by decide)

/-! ## C8: final ordering of `searchWithRefinements` -/

/-- The comparator of the final `.sort` in `searchWithRefinements`, as a
boolean "a comes no later than b" relation: the source comparator returns
`dateB - dateA` when the dates differ and `scoreB - scoreA` otherwise, so
`a` precedes-or-ties `b` iff `b.postedDate < a.postedDate`, or the dates are
equal and `b.matchScore ≤ a.matchScore`. -/
def jobLe (a b : EnhancedJobListing) : Bool :=
  if b.postedDate = a.postedDate then decide (b.matchScore ≤ a.matchScore)
  else decide (b.postedDate < a.postedDate)

/-- The final stage of `searchWithRefinements` from `src/unnamed/part_002`:
the network accumulation loop is abstracted into the `allJobs` argument (the
listings pushed by the `processJobResult` calls); this definition is the
source's final date filter, dedup, quality filter, sort and `slice(0, 20)`.
JS `Array.prototype.sort` (stable, comparator-consistent) is modelled by
`List.mergeSort`. -/
def searchWithRefinements (allJobs : List EnhancedJobListing) (now : Int) :
    List EnhancedJobListing :=
  let freshJobs := allJobs.filter fun job =>
    decide (Int.fdiv (now - job.postedDate) 86400000 ≤ 4)
  let uniqueJobs := filterQualityJobs (removeDuplicateJobs freshJobs)
  let sorted := uniqueJobs.mergeSort jobLe
  sorted.take 20

/-- C8. The list returned by `searchWithRefinements` is sorted with primary
key `postedDate` descending and, for equal `postedDate`, secondary key
`matchScore` descending (the subsequent `slice(0, 20)` preserves that order). -/
theorem searchWithRefinements_sorted (allJobs : List EnhancedJobListing) (now : Int) :
    (searchWithRefinements allJobs now).Pairwise
      (fun a b => b.postedDate < a.postedDate ∨
        (b.postedDate = a.postedDate ∧ b.matchScore ≤ a.matchScore)) := by
  have htrans : ∀ a b c : EnhancedJobListing,
      jobLe a b → jobLe b c → jobLe a c := by
    intro a b c hab hbc
    unfold jobLe at *
    split_ifs at * <;> simp_all <;> omega
  have htotal : ∀ a b : EnhancedJobListing, jobLe a b || jobLe b a := by
    intro a b
    unfold jobLe
    split_ifs <;> simp_all <;> omega
  have hs := List.sorted_mergeSort htrans htotal
    (filterQualityJobs (removeDuplicateJobs (allJobs.filter fun job =>
      decide (Int.fdiv (now - job.postedDate) 86400000 ≤ 4))))
  refine List.Pairwise.imp ?_ (List.Pairwise.sublist (List.take_sublist 20 _) hs)
  intro a b h
  unfold jobLe at h
  split_ifs at h with h1
  · exact Or.inr ⟨h1, of_decide_eq_true h⟩
  · exact Or.inl (of_decide_eq_true h)

/-! ## JSON values and the repair-and-parse pipeline (C4)

`JSON.parse` itself is a platform primitive; it is modelled as an explicit
argument `jsParse : String → Option Json` (`none` models a thrown
`SyntaxError`). Everything around it — cleaning, span location, syntactic
repairs, and the special default-refinements branches — is embedded from the
source. The character-level scanners use a fuel argument equal to the input
length (each step consumes at least one character, so the fuel never runs
out); this keeps them structurally recursive and executable. -/

/-- Parsed JSON values. -/
inductive Json where
  | null
  | bool (b : Bool)
  | num (n : Int)
  | str (s : String)
  | arr (xs : List Json)
  | obj (kvs : List (String × Json))

/-- JS truthiness of a parsed JSON value. -/
def jsTruthy : Json → Bool
  | .null => false
  | .bool b => b
  | .num n => n != 0
  | .str s => s != ""
  | .arr _ => true
  | .obj _ => true

/-- Fueled scanner for the global replace of `/```(?:json)?\s*/gi` with `""`. -/
def stripFencesGo : Nat → List Char → List Char
  | 0, l => l
  | _ + 1, [] => []
  | f + 1, c :: cs =>
    if startsWithL (c :: cs) "```".data then
      let r1 := (c :: cs).drop 3
      let r2 := if startsWithL (r1.map Char.toLower) "json".data then r1.drop 4 else r1
      stripFencesGo f (r2.dropWhile isWsp)
    else c :: stripFencesGo f cs

/-- The cleaning stage of `safeJsonParse`: strip code fences, replace `\n` and
`\t` by spaces, delete `\r`, then trim. -/
def cleanText (text : String) : List Char :=
  let l1 := stripFencesGo text.data.length text.data
  let l2 := l1.map (fun c => if c == '\n' then ' ' else c)
  let l3 := l2.filter (fun c => !(c == '\r'))
  let l4 := l3.map (fun c => if c == '\t' then ' ' else c)
  jsTrimL l4

/-- Leftmost greedy match of `/\{.*\}/` (resp. `/\[.*\]/`): from the first
opening bracket to the last closing bracket after it (`.` cannot match the
line terminators, which the cleaning stage already removed). -/
def braceSpan (openC closeC : Char) (l : List Char) : Option (List Char) :=
  match l.findIdx? (fun c => c == openC) with
  | none => none
  | some i =>
    match l.reverse.findIdx? (fun c => c == closeC) with
    | none => none
    | some rj =>
      let j := l.length - 1 - rj
      if i < j then some ((l.drop i).take (j - i + 1)) else none

/-- `cleaned.match(/\{.*\}/) || cleaned.match(/\[.*\]/)`. -/
def jsonSpan (l : List Char) : Option (List Char) :=
  match braceSpan '{' '}' l with
  | some s => some s
  | none => braceSpan '[' ']' l

/-- First character of a JS identifier (`[a-zA-Z_]`). -/
def isIdentStart (c : Char) : Bool :=
  ('a' ≤ c && c ≤ 'z') || ('A' ≤ c && c ≤ 'Z') || c == '_'

/-- Later character of a JS identifier (`[a-zA-Z0-9_]`). -/
def isIdentChar (c : Char) : Bool := isIdentStart c || isDigitC c

/-- Fueled scanner for `/([{,]\s*)([a-zA-Z_][a-zA-Z0-9_]*)\s*:/g → '$1"$2":'`
(quote unquoted object keys). -/
def repairKeysGo : Nat → List Char → List Char
  | 0, l => l
  | _ + 1, [] => []
  | f + 1, c :: cs =>
    if c == '{' || c == ',' then
      let ws := cs.takeWhile isWsp
      match cs.dropWhile isWsp with
      | [] => c :: repairKeysGo f cs
      | d :: ds =>
        if isIdentStart d then
          let identRest := ds.takeWhile isIdentChar
          match (ds.dropWhile isIdentChar).dropWhile isWsp with
          | ':' :: r4 =>
            (c :: ws) ++ ('"' :: d :: identRest) ++ ('"' :: ':' :: repairKeysGo f r4)
          | _ => c :: repairKeysGo f cs
        else c :: repairKeysGo f cs
    else c :: repairKeysGo f cs

/-- Fueled scanner for `/:\s*'([^']*)'/g → ':"$1"'` (single-quoted string
values to double-quoted). -/
def repairSquoGo : Nat → List Char → List Char
  | 0, l => l
  | _ + 1, [] => []
  | f + 1, c :: cs =>
    if c == ':' then
      match cs.dropWhile isWsp with
      | '\'' :: r2 =>
        let content := r2.takeWhile (fun ch => !(ch == '\''))
        match r2.dropWhile (fun ch => !(ch == '\'')) with
        | '\'' :: r4 => ':' :: '"' :: (content ++ ('"' :: repairSquoGo f r4))
        | _ => c :: repairSquoGo f cs
      | _ => c :: repairSquoGo f cs
    else c :: repairSquoGo f cs

/-- Fueled scanner for `/,\s*([}\]])/g → '$1'` (strip trailing commas). -/
def repairTrailGo : Nat → List Char → List Char
  | 0, l => l
  | _ + 1, [] => []
  | f + 1, c :: cs =>
    if c == ',' then
      match cs.dropWhile isWsp with
      | b :: r2 =>
        if b == '}' || b == ']' then b :: repairTrailGo f r2
        else c :: repairTrailGo f cs
      | [] => c :: repairTrailGo f cs
    else c :: repairTrailGo f cs

/-- Fueled scanner for `/:\s*undefined/g → ':null'`. -/
def repairUndefGo : Nat → List Char → List Char
  | 0, l => l
  | _ + 1, [] => []
  | f + 1, c :: cs =>
    if c == ':' then
      let r1 := cs.dropWhile isWsp
      if startsWithL r1 "undefined".data then
        ':' :: ('n' :: 'u' :: 'l' :: 'l' :: repairUndefGo f (r1.drop 9))
      else c :: repairUndefGo f cs
    else c :: repairUndefGo f cs

/-- The four syntactic repairs of `safeJsonParse`, in source order. -/
def repairJson (l : List Char) : List Char :=
  let a := repairKeysGo l.length l
  let b := repairSquoGo a.length a
  let c := repairTrailGo b.length b
  repairUndefGo c.length c

/-- The default `refinements` object returned by `safeJsonParse`'s special
branches. -/
def defaultRefinements : Json :=
  Json.obj
    [("jobTitles", Json.arr []), ("synonyms", Json.arr []),
     ("location", Json.obj [("remote", Json.bool true)]),
     ("seniority", Json.str "mid"),
     ("mustHaveSkills", Json.arr []), ("niceToHaveSkills", Json.arr []),
     ("salary", Json.obj []),
     ("contractType", Json.str "full-time"),
     ("eligibility", Json.obj [("languages", Json.arr [Json.str "English"])]),
     ("dateRange", Json.num 3),
     ("exclusions", Json.obj []),
     ("targetCompanies", Json.arr [])]

/-- The substitute value returned when no JSON span is found but the input
mentions `refinements`. -/
def noJsonDefault : Json :=
  Json.obj
    [("refinements", defaultRefinements),
     ("missingInfo", Json.arr [Json.str "Job title or role", Json.str "Location preference"]),
     ("suggestions", Json.arr [Json.str "Add specific job title", Json.str "Specify location"])]

/-- The substitute value returned when `JSON.parse` throws but the input
mentions `refinements` or `missingInfo`. -/
def parseFailDefault : Json :=
  Json.obj
    [("refinements", defaultRefinements),
     ("missingInfo", Json.arr [Json.str "Job title", Json.str "Location", Json.str "Experience level"]),
     ("suggestions", Json.arr [Json.str "Specify the role you want", Json.str "Add your preferred location"])]

/-- `safeJsonParse` from `src/unnamed/part_002`. -/
def safeJsonParse (jsParse : String → Option Json) (text : String) : Option Json :=
  if text == "" then none
  else
    let cleaned := cleanText text
    match jsonSpan cleaned with
    | none =>
      if jsIncludes text "refinements" then some noJsonDefault else none
    | some span =>
      match jsParse ⟨repairJson span⟩ with
      | some j => some j
      | none =>
        if jsIncludes text "refinements" || jsIncludes text "missingInfo"
        then some parseFailDefault
        else none

/-- Counterexample for C4 as stated: on the input `"refinements"` the pipeline
fails at the locate-a-JSON-span step, yet `safeJsonParse` returns a substitute
default-refinements object instead of `null`. -/
theorem safeJsonParse_refinements_cex :
    (safeJsonParse (fun _ => none) "refinements").isSome = true ∧
    jsonSpan (cleanText "refinements") = none := by decide

/-- C4 (amended). For every input whose original text does not contain
`"refinements"` or `"missingInfo"`, `safeJsonParse` is exactly the
clean/locate/repair/parse pipeline: any failure at any step yields `null` and
no substitute value is ever produced. (Inputs containing those markers receive
a default refinements structure on failure instead of `null`.) -/
theorem safeJsonParse_amended (jsParse : String → Option Json) (text : String)
    (h1 : jsIncludes text "refinements" = false)
    (h2 : jsIncludes text "missingInfo" = false) :
    safeJsonParse jsParse text =
      (jsonSpan (cleanText text)).bind (fun span => jsParse ⟨repairJson span⟩) := by
  by_cases he : text = ""
  · subst he
    have h0 : jsonSpan (cleanText "") = none := rfl
    simp [safeJsonParse, h0]
  · have hne : (text == "") = false := beq_eq_false_iff_ne.mpr he
    simp only [safeJsonParse, hne, Bool.false_eq_true, if_false]
    cases hs : jsonSpan (cleanText text) with
    | none => simp [h1]
    | some span =>
      cases hp : jsParse ⟨repairJson span⟩ with
      | none => simp [h1, h2, hp]
      | some j => simp [hp]

/-- Witness for C4 (amended): on the marker-free input `"hello"` (and a
parser that always fails) the pipeline equation holds, and its value is
`null`. -/
theorem safeJsonParse_amended_witness :
    safeJsonParse (fun _ => (none : Option Json)) "hello" =
      (jsonSpan (cleanText "hello")).bind
        (fun span => (fun _ : String => (none : Option Json)) ⟨repairJson span⟩) :=
  safeJsonParse_amended (fun _ => (none : Option Json)) "hello" (by decide) (by decide)

/-! ## Structuring engine (C3)

`structureJobWithGemini` is embedded with the generative provider as an
explicit argument `gemini : Except Unit String` (`Except.error` models a
thrown provider/quota error), `JSON.parse` as `jsParse`, `new Date()` as
`now`, and the random/time-based `generateJobId` result as `freshId`. The
dynamic-typed accesses performed on the parsed provider JSON (whose thrown
`TypeError`s land in the function's `catch` block) are modelled in the
`Except Unit` monad. -/

/-- The raw scraped record handed to the structuring engine (JS `undefined`
fields collapse to `""`, which the source only ever tests for truthiness or
defaults with `||`). -/
structure ScrapedData where
  title : String
  company : String
  location : String
  description : String
  salary : String
  employmentType : String
  deriving DecidableEq

/-- JS property access on a parsed JSON value (`undefined` is `none`;
access on primitives yields `undefined` for custom keys). -/
def jsGet (j : Json) (k : String) : Option Json :=
  match j with
  | .obj kvs => kvs.lookup k
  | _ => none

/-- JS truthiness of a possibly-`undefined` value. -/
def optTruthy (v : Option Json) : Bool :=
  match v with
  | none => false
  | some j => jsTruthy j

mutual

/-- JS string coercion of a JSON value, as in a template literal.
(Array elements that are `null` render via their own coercion here — a
harmless idealisation of JS `Array.prototype.toString`, which renders them
as empty strings; no claim depends on these values.) -/
def jsDisplay : Json → String
  | .null => "null"
  | .bool true => "true"
  | .bool false => "false"
  | .num n => toString n
  | .str s => s
  | .arr xs => String.intercalate "," (jsDisplayList xs)
  | .obj _ => "[object Object]"

/-- Pointwise `jsDisplay` over a list of JSON values. -/
def jsDisplayList : List Json → List String
  | [] => []
  | x :: xs => jsDisplay x :: jsDisplayList xs

end

/-- JS string coercion of a possibly-`undefined` value in a template literal. -/
def optDisplay (v : Option Json) : String :=
  match v with
  | none => "undefined"
  | some j => jsDisplay j

/-- JS `v.includes(needle)`: defined on strings (substring test) and arrays
(SameValueZero membership); on any other receiver the call throws. -/
def jsIncludesDyn (v : Option Json) (needle : String) : Except Unit Bool :=
  match v with
  | some (.str s) => .ok (jsIncludes s needle)
  | some (.arr xs) =>
    .ok (xs.any (fun e => match e with | .str s => s == needle | _ => false))
  | _ => .error ()

/-- `calculateMatchScore` applied (as in the source's provider path) to the
dynamically-typed parsed JSON `jobData`: the field accesses may throw. -/
def calculateMatchScoreDyn (j : Json) (r : SearchRefinements) : Except Unit Int := do
  let locB : Int ←
    if r.location.city != "" then do
      let inc ← jsIncludesDyn (jsGet j "location") r.location.city
      pure (if inc then (10 : Int) else 0)
    else pure 0
  let remB : Int :=
    if r.location.remote &&
        (match jsGet j "workplaceType" with
         | some (.str s) => s == "Remote"
         | _ => false) then 10 else 0
  let salB : Int ←
    if optTruthy (jsGet j "salary") && r.salary.min != 0 then
      match jsGet j "salary" with
      | some (.str s) =>
        pure (match parseIntDigits s with
          | some v => if r.salary.min ≤ v then (5 : Int) else 0
          | none => 0)
      | _ => Except.error ()
    else pure 0
  let jobText := jsToLowerStr
    (optDisplay (jsGet j "title") ++ " " ++ optDisplay (jsGet j "description"))
  let skB : Int := 2 *
    ((r.mustHaveSkills.filter (fun sk => jsIncludes jobText (jsToLowerStr sk))).length : Int)
  pure (min (70 + locB + remB + salB + skB) 95)

/-- `generateMatchReasons` applied to the dynamically-typed parsed JSON. -/
def generateMatchReasonsDyn (j : Json) (r : SearchRefinements) :
    Except Unit (List String) := do
  let l1 : List String ←
    if r.location.city != "" then do
      let inc ← jsIncludesDyn (jsGet j "location") r.location.city
      pure (if inc then ["Location match"] else [])
    else pure []
  let l2 : List String :=
    if r.location.remote &&
        (match jsGet j "workplaceType" with
         | some (.str s) => s == "Remote"
         | _ => false) then ["Remote opportunity"] else []
  let l3 : List String := if optTruthy (jsGet j "salary") then ["Competitive salary"] else []
  let jobText := jsToLowerStr
    (optDisplay (jsGet j "title") ++ " " ++ optDisplay (jsGet j "description"))
  let n := (r.mustHaveSkills.filter (fun sk => jsIncludes jobText (jsToLowerStr sk))).length
  let l4 : List String := if 0 < n then ["Matches " ++ toString n ++ " key skills"] else []
  pure ((l1 ++ l2 ++ l3 ++ l4).take 3)

/-- Coercion of a parsed-JSON field into the typed record produced by the
source's `{ id, ...jobData, ... }` spread (`undefined` collapses to `""`). -/
def jsFieldStr (j : Json) (k : String) : String :=
  match jsGet j k with
  | none => ""
  | some v => jsDisplay v

/-- Coercion of a parsed-JSON field into a string list: arrays map pointwise,
falsy values count as empty (as the downstream `!x || x.length === 0` tests
do), any other truthy value counts as a one-element list. -/
def jsFieldList (j : Json) (k : String) : List String :=
  match jsGet j k with
  | some (.arr xs) => jsDisplayList xs
  | v => if optTruthy v then [optDisplay v] else []

/-- The provider-path result record
`{ id, ...jobData, sourceUrl, postedDate, matchScore, matchReasons, missingSkills }`;
the score/reasons computations may throw (caught by the caller). -/
def buildFromJobData (j : Json) (url : String) (r : SearchRefinements)
    (now : Int) (freshId : String) : Except Unit EnhancedJobListing := do
  let score ← calculateMatchScoreDyn j r
  let reasons ← generateMatchReasonsDyn j r
  pure
    { id := freshId
      title := jsFieldStr j "title"
      company := jsFieldStr j "company"
      location := jsFieldStr j "location"
      description := jsFieldStr j "description"
      salary := jsFieldStr j "salary"
      currency := jsFieldStr j "currency"
      employmentType := jsFieldStr j "employmentType"
      workplaceType := jsFieldStr j "workplaceType"
      requirements := jsFieldList j "requirements"
      responsibilities := jsFieldList j "responsibilities"
      postedDate := now
      sourceUrl := url
      matchScore := score
      matchReasons := reasons
      missingSkills := [] }

/-- JS `text.split(/\n|•|·|★/)`. -/
def splitSeps (l : List Char) : List (List Char) :=
  match l with
  | [] => [[]]
  | c :: cs =>
    match splitSeps cs with
    | [] => [[]]
    | seg :: segs =>
      if c == '\n' || c == '•' || c == '·' || c == '★' then [] :: seg :: segs
      else (c :: seg) :: segs

/-- The scanning loop of `extractListFromText`: set `capturing` on a line
mentioning the keyword, then collect trimmed lines longer than 10 characters
(truncated to 150), stopping after 5 items. -/
def extractListGo (ty : List Char) : List (List Char) → Bool → List String → List String
  | [], _, acc => acc
  | line :: rest, capturing, acc =>
    if containsL (line.map Char.toLower) ty then extractListGo ty rest true acc
    else if capturing && decide (10 < (jsTrimL line).length) then
      let acc' := acc ++ [(⟨(jsTrimL line).take 150⟩ : String)]
      if 5 ≤ acc'.length then acc' else extractListGo ty rest capturing acc'
    else extractListGo ty rest capturing acc

/-- `extractListFromText` from `src/unnamed/part_002`. -/
def extractListFromText (text : String) (ty : String) : Option (List String) :=
  if text == "" then none
  else
    let items := extractListGo ty.data (splitSeps text.data) false []
    if items.length = 0 then none else some items

/-- The `if (!jobData)` fallback record of `structureJobWithGemini` (the
parse-failure path): deterministic defaults `"Competitive"`, `"Full-time"`,
`"Onsite"`, with requirement/responsibility lists scavenged from the raw
description. -/
def parseNullFallback (sd : ScrapedData) (url : String) (now : Int)
    (freshId : String) : EnhancedJobListing :=
  { id := freshId
    title := if sd.title == "" then "Job Opening" else sd.title
    company := if sd.company == "" then "Company" else sd.company
    location := if sd.location == "" then "Location not specified" else sd.location
    description := if sd.description == "" then
      "Please visit the job page for full details." else sd.description
    salary := if sd.salary == "" then "Competitive" else sd.salary
    currency := "USD"
    employmentType := if sd.employmentType == "" then "Full-time" else sd.employmentType
    workplaceType := "Onsite"
    requirements := (extractListFromText sd.description "requirements").getD
      ["Please visit the job page for requirements"]
    responsibilities := (extractListFromText sd.description "responsibilities").getD
      ["Please visit the job page for responsibilities"]
    sourceUrl := url
    postedDate := now
    matchScore := 70
    matchReasons := ["Potential match"]
    missingSkills := [] }

/-- The `catch` fallback record of `structureJobWithGemini` (provider threw,
or a dynamic access on the parsed JSON threw): fixed `"Full-time"`/`"Onsite"`,
salary default `"Competitive"`. -/
def geminiErrorFallback (sd : ScrapedData) (url : String) (now : Int)
    (freshId : String) : EnhancedJobListing :=
  { id := freshId
    title := if sd.title == "" then "Job Opening" else sd.title
    company := if sd.company == "" then "Company" else sd.company
    location := if sd.location == "" then "Location not specified" else sd.location
    description := if sd.description == "" then
      "Please visit the job page for full details." else sd.description
    salary := if sd.salary == "" then "Competitive" else sd.salary
    currency := "USD"
    employmentType := "Full-time"
    workplaceType := "Onsite"
    requirements := ["Visit job page for full requirements"]
    responsibilities := ["Visit job page for full responsibilities"]
    sourceUrl := url
    postedDate := now
    matchScore := 70
    matchReasons := ["Potential match"]
    missingSkills := [] }

/-- `structureJobWithGemini` from `src/unnamed/part_002`. -/
def structureJobWithGemini (gemini : Except Unit String)
    (jsParse : String → Option Json) (scraped : Option ScrapedData)
    (url : String) (r : SearchRefinements) (now : Int) (freshId : String) :
    Option EnhancedJobListing :=
  match scraped with
  | none => none
  | some sd =>
    if sd.title == "" && sd.description == "" then none
    else
      match gemini with
      | .error _ => some (geminiErrorFallback sd url now freshId)
      | .ok text =>
        match safeJsonParse jsParse text with
        | some jobData =>
          if jsTruthy jobData then
            match buildFromJobData jobData url r now freshId with
            | .ok job => some job
            | .error _ => some (geminiErrorFallback sd url now freshId)
          else some (parseNullFallback sd url now freshId)
        | none => some (parseNullFallback sd url now freshId)

/-! ## C3: structuring totality -/

/-- C3. `structureJobWithGemini` returns `null` exactly when the scraped input
is missing or has neither a title nor a description; on every other input —
whatever the provider, the JSON parser, or the dynamic accesses on the parsed
JSON do — it returns a job listing (so it never throws: every throwing path is
modelled and lands in a fallback). When the provider throws, the returned
listing is the deterministic `catch` fallback, with `salary` defaulting to
`"Competitive"`, `employmentType` to `"Full-time"` and `workplaceType` to
`"Onsite"`. -/
theorem structureJobWithGemini_total (gemini : Except Unit String)
    (jsParse : String → Option Json) (scraped : Option ScrapedData)
    (url : String) (r : SearchRefinements) (now : Int) (freshId : String) :
    (structureJobWithGemini gemini jsParse scraped url r now freshId = none ↔
      (scraped = none ∨
        ∃ sd, scraped = some sd ∧ sd.title = "" ∧ sd.description = "")) ∧
    (∀ sd, scraped = some sd → ¬(sd.title = "" ∧ sd.description = "") →
      gemini = Except.error () →
      structureJobWithGemini gemini jsParse scraped url r now freshId =
        some (geminiErrorFallback sd url now freshId) ∧
      (geminiErrorFallback sd url now freshId).salary =
        (if sd.salary == "" then "Competitive" else sd.salary) ∧
      (geminiErrorFallback sd url now freshId).employmentType = "Full-time" ∧
      (geminiErrorFallback sd url now freshId).workplaceType = "Onsite") := by
  constructor
  · cases scraped with
    | none => simp [structureJobWithGemini]
    | some sd =>
      simp only [structureJobWithGemini]
      by_cases h : (sd.title == "" && sd.description == "") = true
      · simp only [Bool.and_eq_true, beq_iff_eq] at h
        simp [h]
      · have hb : (sd.title == "" && sd.description == "") = false := by
          cases hx : (sd.title == "" && sd.description == "") with
          | false => rfl
          | true => exact absurd hx h
        have hprop : ¬(sd.title = "" ∧ sd.description = "") := by
          intro hh
          exact h (by simp [Bool.and_eq_true, beq_iff_eq, hh.1, hh.2])
        rw [hb]
        simp only [Bool.false_eq_true, if_false]
        cases gemini with
        | error e => simp [hprop]
        | ok text =>
          cases hp : safeJsonParse jsParse text with
          | none => simp [hp, hprop]
          | some jobData =>
            by_cases ht : jsTruthy jobData = true
            · cases hbuild : buildFromJobData jobData url r now freshId with
              | ok job => simp [hp, ht, hbuild, hprop]
              | error e => simp [hp, ht, hbuild, hprop]
            · have ht' : jsTruthy jobData = false := by
                cases hx : jsTruthy jobData with
                | false => rfl
                | true => exact absurd hx ht
              simp [hp, ht', hprop]
  · intro sd hsd hne hge
    subst hsd
    subst hge
    have hb : (sd.title == "" && sd.description == "") = false := by
      cases hx : (sd.title == "" && sd.description == "") with
      | false => rfl
      | true =>
        simp only [Bool.and_eq_true, beq_iff_eq] at hx
        exact absurd hx hne
    refine ⟨?_, rfl, rfl, rfl⟩
    simp only [structureJobWithGemini, hb, Bool.false_eq_true, if_false]

/-- Concrete scraped record for the C3 witness: a title but no description. -/
def sdC3 : ScrapedData :=
  { title := "Platform Engineer", company := "", location := ""
    description := "", salary := "", employmentType := "" }

/-- Witness for C3 at concrete inputs: a throwing provider and a scraped
record with a title still yield the catch-fallback listing with the
deterministic defaults. -/
theorem structureJobWithGemini_total_witness :
    structureJobWithGemini (Except.error ()) (fun _ => (none : Option Json))
        (some sdC3) "https://w.example/j" refsC9 0 "idw" =
      some (geminiErrorFallback sdC3 "https://w.example/j" 0 "idw") ∧
    (geminiErrorFallback sdC3 "https://w.example/j" 0 "idw").salary =
      (if sdC3.salary == "" then "Competitive" else sdC3.salary) ∧
    (geminiErrorFallback sdC3 "https://w.example/j" 0 "idw").employmentType = "Full-time" ∧
    (geminiErrorFallback sdC3 "https://w.example/j" 0 "idw").workplaceType = "Onsite" :=
  (structureJobWithGemini_total (Except.error ()) (fun _ => (none : Option Json))
    (some sdC3) "https://w.example/j" refsC9 0 "idw").2 sdC3 rfl (by decide) rfl

/-! ## Page fetcher: `extractJobData` (C10)

From `src/backend/functions/src/index.ts`. The cheerio DOM is not modelled:
the generic heuristic selector results (`extractText([...])` per field), the
parsed `JobPosting` JSON-LD block (`none` models a missing script tag or a
`JSON.parse` failure, both of which leave the heuristic values untouched) and
the `findJobLinks` result are passed as explicit arguments, as are the
results of the seven site-specific scrapers selected by the URL dispatch. -/

/-- The generic heuristic selector results (one `extractText` call per field;
`""` models "no selector matched"). -/
structure HeurData where
  title : String
  company : String
  location : String
  salary : String
  description : String
  employmentType : String
  deriving DecidableEq

/-- The fields read from a parsed JSON-LD block (`""` models a missing
field, which is falsy like JS `undefined`). -/
structure LdJson where
  atType : String
  title : String
  hiringOrgName : String
  addressLocality : String
  baseSalaryValue : String
  description : String
  deriving DecidableEq

/-- The `JobData` record of the backend. -/
structure JobData where
  url : String
  title : String
  company : String
  location : String
  salary : String
  description : String
  employmentType : String
  deriving DecidableEq

/-- The backend's `ScrapeResponse` (the error variant never leaves
`extractJobData` itself and is omitted). -/
inductive ScrapeResponse where
  | single (job : JobData)
  | list (jobs : List JobData)
  deriving DecidableEq

/-- The results of the seven site-specific scrapers, abstract. -/
structure SiteResults where
  indeed : ScrapeResponse
  linkedin : ScrapeResponse
  glassdoor : ScrapeResponse
  angel : ScrapeResponse
  greenhouse : ScrapeResponse
  lever : ScrapeResponse
  workday : ScrapeResponse

/-- The generic-branch job record of `extractJobData`: heuristic values
first (description truncated to 5000 characters), then JSON-LD values merged
with `job.x = job.x || data.x` — i.e. a JSON-LD field is used only when the
heuristic value is empty. -/
def genericJob (heur : HeurData) (ld : Option LdJson) (url : String) : JobData :=
  let job0 : JobData :=
    { url := url, title := heur.title, company := heur.company
      location := heur.location, salary := heur.salary
      description := ⟨heur.description.data.take 5000⟩
      employmentType := heur.employmentType }
  match ld with
  | some d =>
    if d.atType == "JobPosting" then
      { job0 with
        title := if job0.title == "" then d.title else job0.title
        company := if job0.company == "" then d.hiringOrgName else job0.company
        location := if job0.location == "" then d.addressLocality else job0.location
        salary := if job0.salary == "" then d.baseSalaryValue else job0.salary
        description := if job0.description == "" then d.description else job0.description }
    else job0
  | none => job0

/-- `extractJobData` from the backend: URL dispatch to site scrapers, then
the generic heuristic/JSON-LD extraction, then the job-list-page check. -/
def extractJobData (site : SiteResults) (heur : HeurData) (ld : Option LdJson)
    (links : List JobData) (url : String) : ScrapeResponse :=
  if jsIncludes url "indeed.com" then site.indeed
  else if jsIncludes url "linkedin.com" then site.linkedin
  else if jsIncludes url "glassdoor.com" then site.glassdoor
  else if jsIncludes url "angel.co" || jsIncludes url "wellfound.com" then site.angel
  else if jsIncludes url "greenhouse.io" then site.greenhouse
  else if jsIncludes url "lever.co" then site.lever
  else if jsIncludes url "workday.com" then site.workday
  else
    let job := genericJob heur ld url
    if 1 < links.length && (job.title == "" || job.company == "") then
      ScrapeResponse.list links
    else ScrapeResponse.single job

/-- Dummy site-scraper results for the C10 counterexample (never reached:
the URL matches no recognized domain). -/
def siteC10 : SiteResults :=
  { indeed := .list [], linkedin := .list [], glassdoor := .list []
    angel := .list [], greenhouse := .list [], lever := .list []
    workday := .list [] }

/-- Heuristic DOM values for the C10 counterexample: every field present. -/
def heurC10 : HeurData :=
  { title := "Heuristic Title", company := "Acme Widgets"
    location := "Austin, TX", salary := "$100k"
    description := "A role.", employmentType := "" }

/-- JSON-LD values for the C10 counterexample: a `JobPosting` block whose
fields all differ from the heuristic ones. -/
def ldC10 : LdJson :=
  { atType := "JobPosting", title := "LD Title", hiringOrgName := "LD Org"
    addressLocality := "LD City", baseSalaryValue := "123"
    description := "LD Description" }

/-- Counterexample for C10 as stated: on an unrecognized domain with both a
heuristic value and a `JobPosting` JSON-LD value for every field, the
returned record carries the heuristic DOM values, not the JSON-LD ones —
`job.title = job.title || data.title` prefers the heuristic value. -/
theorem extractJobData_jsonld_cex :
    extractJobData siteC10 heurC10 (some ldC10) [] "https://careers.example.com/job/1" =
      ScrapeResponse.single
        { url := "https://careers.example.com/job/1", title := "Heuristic Title"
          company := "Acme Widgets", location := "Austin, TX", salary := "$100k"
          description := "A role.", employmentType := "" } ∧
    heurC10.title ≠ "" ∧ ldC10.title ≠ "" ∧ ldC10.title ≠ heurC10.title := by decide

/-- C10 (amended). In `extractJobData` on an unrecognized domain with a
`JobPosting` JSON-LD block: when both a heuristic DOM value and a JSON-LD
value exist for a field, the heuristic DOM value ends up in the returned
record; the JSON-LD value is used only for fields whose heuristic value is
empty. (With a non-empty heuristic title and company the result is the single
job record, never the list branch.) -/
theorem extractJobData_jsonld_merge (site : SiteResults) (heur : HeurData)
    (d : LdJson) (links : List JobData) (url : String)
    (hu1 : jsIncludes url "indeed.com" = false)
    (hu2 : jsIncludes url "linkedin.com" = false)
    (hu3 : jsIncludes url "glassdoor.com" = false)
    (hu4 : jsIncludes url "angel.co" = false)
    (hu5 : jsIncludes url "wellfound.com" = false)
    (hu6 : jsIncludes url "greenhouse.io" = false)
    (hu7 : jsIncludes url "lever.co" = false)
    (hu8 : jsIncludes url "workday.com" = false)
    (hty : d.atType = "JobPosting")
    (htitle : heur.title ≠ "") (hcomp : heur.company ≠ "") :
    extractJobData site heur (some d) links url =
      ScrapeResponse.single (genericJob heur (some d) url) ∧
    (genericJob heur (some d) url).title = heur.title ∧
    (genericJob heur (some d) url).company = heur.company ∧
    (genericJob heur (some d) url).location =
      (if heur.location == "" then d.addressLocality else heur.location) ∧
    (genericJob heur (some d) url).salary =
      (if heur.salary == "" then d.baseSalaryValue else heur.salary) ∧
    (genericJob heur (some d) url).description =
      (if (⟨heur.description.data.take 5000⟩ : String) == "" then d.description
       else (⟨heur.description.data.take 5000⟩ : String)) := by
  have et : (heur.title == "") = false := beq_eq_false_iff_ne.mpr htitle
  have ec : (heur.company == "") = false := beq_eq_false_iff_ne.mpr hcomp
  have hg : genericJob heur (some d) url =
      { url := url
        title := if heur.title == "" then d.title else heur.title
        company := if heur.company == "" then d.hiringOrgName else heur.company
        location := if heur.location == "" then d.addressLocality else heur.location
        salary := if heur.salary == "" then d.baseSalaryValue else heur.salary
        description :=
          if (⟨heur.description.data.take 5000⟩ : String) == "" then d.description
          else (⟨heur.description.data.take 5000⟩ : String)
        employmentType := heur.employmentType } := by
    have hty' : (d.atType == "JobPosting") = true := beq_iff_eq.mpr hty
    simp only [genericJob, hty', if_true]
  refine ⟨?_, ?_, ?_, ?_, ?_, ?_⟩ <;>
    simp [extractJobData, hg, hu1, hu2, hu3, hu4, hu5, hu6, hu7, hu8, et, ec]

/-- Heuristic values for the C10 witness: title and company present,
location/salary/description empty, so JSON-LD fills exactly those. -/
def heurC10w : HeurData :=
  { title := "Platform Engineer", company := "ExCo", location := ""
    salary := "", description := "", employmentType := "" }

/-- Witness for C10 (amended) at concrete inputs: heuristic title/company
survive, JSON-LD fills the empty location/salary/description. -/
theorem extractJobData_jsonld_merge_witness :
    extractJobData siteC10 heurC10w (some ldC10) [] "https://jobs.example.org/x" =
      ScrapeResponse.single (genericJob heurC10w (some ldC10) "https://jobs.example.org/x") ∧
    (genericJob heurC10w (some ldC10) "https://jobs.example.org/x").title = heurC10w.title ∧
    (genericJob heurC10w (some ldC10) "https://jobs.example.org/x").company = heurC10w.company ∧
    (genericJob heurC10w (some ldC10) "https://jobs.example.org/x").location =
      (if heurC10w.location == "" then ldC10.addressLocality else heurC10w.location) ∧
    (genericJob heurC10w (some ldC10) "https://jobs.example.org/x").salary =
      (if heurC10w.salary == "" then ldC10.baseSalaryValue else heurC10w.salary) ∧
    (genericJob heurC10w (some ldC10) "https://jobs.example.org/x").description =
      (if (⟨heurC10w.description.data.take 5000⟩ : String) == "" then ldC10.description
       else (⟨heurC10w.description.data.take 5000⟩ : String)) :=
  extractJobData_jsonld_merge siteC10 heurC10w ldC10 [] "https://jobs.example.org/x"
    (by decide) (by decide) (by decide) (by decide) (by decide) (by decide)
    (by decide) (by decide) (by decide) (by decide) (by decide)
